import Mathlib

/-!
Verification of the enrollment-consistency core of the student-portal
backend.  The definitions below are a shallow embedding of the route
handlers of the portal server (the file registering `/api/students/...`
and `/api/courses/...` routes on a raw MongoDB driver), plus, for the
course-update comparison, the sibling course-API servers whose
`PUT /api/courses/:id` destructures `courseCode` out of the request body.

Document identifiers (Mongo `_id`) are modelled as `Nat`; a collection is
a list of documents and the unique-`_id` guarantee of the store is an
explicit `Nodup` hypothesis where a proof needs it.  `updateOne` is
modelled as an update of the first matching document (`updateFirst`),
`updateMany` as a `map` guarded by the query predicate, `findOne` as
`List.find?`, `findOneAndDelete` as `List.find?` plus `List.eraseP`, and
`insertOne` as an append.
-/

/-- A document of the `students` collection: `_id`, `name`, `email`,
hashed `password`, external `studentId` code, and the `enrolledCourses`
array of course `_id`s. -/
structure Student where
  id : Nat
  name : String
  email : String
  password : String
  studentId : String
  enrolledCourses : List Nat
deriving Repr, DecidableEq

/-- A document of the `courses` collection: `_id`, `courseCode`,
`courseName`, `instructor`, `credits`, `description`, `capacity`, and the
`enrolledStudents` array of student `_id`s. -/
structure Course where
  id : Nat
  courseCode : String
  courseName : String
  instructor : String
  credits : Int
  description : String
  capacity : Int
  enrolledStudents : List Nat
deriving Repr, DecidableEq

/-- The two collections the enrollment coordinator reads and writes. -/
structure DB where
  students : List Student
  courses : List Course
deriving Repr, DecidableEq

/-- `coursesCollection.findOne with the given id` -/
def findCourse (db : DB) (cid : Nat) : Option Course :=
  db.courses.find? (fun c => c.id == cid)

/-- `studentsCollection.findOne with the given id` -/
def findStudent (db : DB) (sid : Nat) : Option Student :=
  db.students.find? (fun s => s.id == sid)

/-- Update the first element satisfying `p` (MongoDB `updateOne`: a
single matching document is modified, the rest are untouched). -/
def updateFirst (p : α → Bool) (f : α → α) : List α → List α
  | [] => []
  | x :: xs => if p x then f x :: xs else x :: updateFirst p f xs

/-- Push `sid` onto a course's `enrolledStudents` array. -/
def Course.pushStudent (sid : Nat) (c : Course) : Course :=
  { c with enrolledStudents := c.enrolledStudents ++ [sid] }

/-- Pull every occurrence of `sid` from a course's `enrolledStudents`
array. -/
def Course.pullStudent (sid : Nat) (c : Course) : Course :=
  { c with enrolledStudents := c.enrolledStudents.filter (fun x => x != sid) }

/-- Push `cid` onto a student's `enrolledCourses` array. -/
def Student.pushCourse (cid : Nat) (s : Student) : Student :=
  { s with enrolledCourses := s.enrolledCourses ++ [cid] }

/-- Pull every occurrence of `cid` from a student's `enrolledCourses`
array. -/
def Student.pullCourse (cid : Nat) (s : Student) : Student :=
  { s with enrolledCourses := s.enrolledCourses.filter (fun x => x != cid) }

/-- `coursesCollection.updateOne` pushing a student id into
`enrolledStudents` of the course with `_id = cid`. -/
def pushEnrolledStudent (db : DB) (cid sid : Nat) : DB :=
  { db with courses := updateFirst (fun c => c.id == cid) (Course.pushStudent sid) db.courses }

/-- `studentsCollection.updateOne` pushing a course id into
`enrolledCourses` of the student with `_id = sid`. -/
def pushEnrolledCourse (db : DB) (sid cid : Nat) : DB :=
  { db with students := updateFirst (fun s => s.id == sid) (Student.pushCourse cid) db.students }

/-- `coursesCollection.updateOne` pulling a student id from
`enrolledStudents` of the course with `_id = cid`. -/
def pullEnrolledStudent (db : DB) (cid sid : Nat) : DB :=
  { db with courses := updateFirst (fun c => c.id == cid) (Course.pullStudent sid) db.courses }

/-- `studentsCollection.updateOne` pulling a course id from
`enrolledCourses` of the student with `_id = sid`. -/
def pullEnrolledCourse (db : DB) (sid cid : Nat) : DB :=
  { db with students := updateFirst (fun s => s.id == sid) (Student.pullCourse cid) db.students }

/-- Result of `POST /api/courses/:id/enroll`: the two 404 branches, the
two 400 branches, and the success response carrying the course value the
handler sends back. -/
inductive EnrollOutcome where
  | courseNotFound
  | studentNotFound
  | alreadyEnrolled
  | courseFull
  | success (course : Course)
deriving Repr, DecidableEq

/-- True exactly on the success outcome. -/
def EnrollOutcome.isSuccess : EnrollOutcome → Bool
  | .success _ => true
  | _ => false

/-- `POST /api/courses/:id/enroll`: load course and student, reject if
either is missing, reject when the student's `enrolledCourses` already
contains the course id, reject when the course is at capacity, otherwise
push the student id into the course document and the course id into the
student document, and respond with the course value read at the start. -/
def enroll (db : DB) (cid sid : Nat) : EnrollOutcome × DB :=
  match findCourse db cid with
  | none => (.courseNotFound, db)
  | some course =>
    match findStudent db sid with
    | none => (.studentNotFound, db)
    | some student =>
      if cid ∈ student.enrolledCourses then (.alreadyEnrolled, db)
      else if (course.enrolledStudents.length : Int) ≥ course.capacity then (.courseFull, db)
      else
        let db1 := pushEnrolledStudent db cid sid
        let db2 := pushEnrolledCourse db1 sid cid
        (.success course, db2)

/-- Result of `POST /api/courses/:id/drop`. -/
inductive DropOutcome where
  | courseNotFound
  | success
deriving Repr, DecidableEq

/-- `POST /api/courses/:id/drop`: 404 when the course is missing,
otherwise pull the student id from the course document and the course id
from the student document, unconditionally reporting success. -/
def drop (db : DB) (cid sid : Nat) : DropOutcome × DB :=
  match findCourse db cid with
  | none => (.courseNotFound, db)
  | some _ =>
    let db1 := pullEnrolledStudent db cid sid
    let db2 := pullEnrolledCourse db1 sid cid
    (.success, db2)

/-- Result of the two delete routes. -/
inductive DeleteOutcome where
  | notFound
  | success
deriving Repr, DecidableEq

/-- `DELETE /api/courses/:id`: `findOneAndDelete` the course, then
`updateMany` pulling the course id from `enrolledCourses` of every
student whose array contains it. -/
def deleteCourse (db : DB) (cid : Nat) : DeleteOutcome × DB :=
  match findCourse db cid with
  | none => (.notFound, db)
  | some _ =>
    let db1 := { db with courses := db.courses.eraseP (fun c => c.id == cid) }
    let db2 := { db1 with students := db1.students.map (fun s =>
        if cid ∈ s.enrolledCourses then Student.pullCourse cid s else s) }
    (.success, db2)

/-- `DELETE /api/students/:id`: `findOneAndDelete` the student, then
`updateMany` pulling the student id from `enrolledStudents` of every
course whose array contains it. -/
def deleteStudent (db : DB) (sid : Nat) : DeleteOutcome × DB :=
  match findStudent db sid with
  | none => (.notFound, db)
  | some _ =>
    let db1 := { db with students := db.students.eraseP (fun s => s.id == sid) }
    let db2 := { db1 with courses := db1.courses.map (fun c =>
        if sid ∈ c.enrolledStudents then Course.pullStudent sid c else c) }
    (.success, db2)

/-- The four coordinator operations the spec's core invariant quantifies
over. -/
inductive CoordOp where
  | enrollOp (courseId studentId : Nat)
  | dropOp (courseId studentId : Nat)
  | deleteCourseOp (courseId : Nat)
  | deleteStudentOp (studentId : Nat)
deriving Repr, DecidableEq

/-- The database state after running one coordinator operation to
completion. -/
def applyOp (db : DB) : CoordOp → DB
  | .enrollOp cid sid => (enroll db cid sid).2
  | .dropOp cid sid => (drop db cid sid).2
  | .deleteCourseOp cid => (deleteCourse db cid).2
  | .deleteStudentOp sid => (deleteStudent db sid).2

/-- The bidirectional membership invariant: a course id sits in a
student's `enrolledCourses` exactly when the student's id sits in the
course's `enrolledStudents`. -/
def Invariant (db : DB) : Prop :=
  ∀ s ∈ db.students, ∀ c ∈ db.courses,
    (c.id ∈ s.enrolledCourses ↔ s.id ∈ c.enrolledStudents)

/-- Well-formedness the store's unique `_id` index guarantees: no two
documents of a collection share an id. -/
def WF (db : DB) : Prop :=
  (db.students.map Student.id).Nodup ∧ (db.courses.map Course.id).Nodup

/-- Capacity bound: no course holds more enrolled students than its
capacity. -/
def CapOK (db : DB) : Prop :=
  ∀ c ∈ db.courses, (c.enrolledStudents.length : Int) ≤ c.capacity

example : (enroll
    { students := [{ id := 2, name := "Bo", email := "bo@x", password := "h2",
                     studentId := "S2", enrolledCourses := [] }],
      courses := [{ id := 10, courseCode := "CS101", courseName := "Intro",
                    instructor := "Dr. Smith", credits := 3, description := "",
                    capacity := 2, enrolledStudents := [1] }] } 10 2).2.courses.map
      (fun c => c.enrolledStudents) = [[1, 2]] := by decide

/-! Helper lemmas about `updateFirst` and `eraseP`. -/

theorem updateFirst_eq_map {α} (p : α → Bool) (f : α → α) (l : List α)
    (h : l.Pairwise fun x y => ¬(p x = true ∧ p y = true)) :
    updateFirst p f l = l.map (fun x => if p x then f x else x) := by
  induction l with
  | nil => rfl
  | cons x xs ih =>
    rcases List.pairwise_cons.1 h with ⟨hx, hxs⟩
    by_cases hp : p x = true
    · have hrest : ∀ y ∈ xs, (if p y then f y else y) = y := by
        intro y hy
        have : ¬ p y = true := fun hpy => hx y hy ⟨hp, hpy⟩
        simp [this]
      simp [updateFirst, hp, List.map_congr_left hrest]
    · simp [updateFirst, hp, ih hxs]

theorem find?_updateFirst {α} (p : α → Bool) (f : α → α) (l : List α)
    (hf : ∀ x, p (f x) = p x) :
    (updateFirst p f l).find? p = (l.find? p).map f := by
  induction l with
  | nil => rfl
  | cons x xs ih =>
    by_cases hp : p x = true
    · simp [updateFirst, hp, List.find?_cons_of_pos, hf x]
    · have hp' : p x = false := by simpa using hp
      simp [updateFirst, hp', List.find?_cons_of_neg, ih]

theorem mem_updateFirst_of_find? {α} (p : α → Bool) (f : α → α) (l : List α) (y : α)
    (hy : l.find? p = some y) :
    ∀ x ∈ updateFirst p f l, x ∈ l ∨ x = f y := by
  induction l with
  | nil => intro x hx; simp [updateFirst] at hx
  | cons a as ih =>
    intro x hx
    by_cases hp : p a = true
    · have ha : a = y := by
        have := List.find?_cons_of_pos (p := p) as hp
        rw [this] at hy
        exact Option.some_injective _ hy
      simp only [updateFirst, if_pos hp, List.mem_cons] at hx
      rcases hx with hx | hx
      · right; rw [hx, ha]
      · left; exact List.mem_cons_of_mem _ hx
    · have := List.find?_cons_of_neg (p := p) as hp
      rw [this] at hy
      simp only [updateFirst, if_neg hp, List.mem_cons] at hx
      rcases hx with hx | hx
      · left; exact hx ▸ List.mem_cons_self _ _
      · rcases ih hy x hx with h | h
        · left; exact List.mem_cons_of_mem _ h
        · right; exact h

theorem updateFirst_updateFirst {α} (p : α → Bool) (f : α → α) (l : List α)
    (hf : ∀ x, p (f x) = p x) (hff : ∀ x, f (f x) = f x) :
    updateFirst p f (updateFirst p f l) = updateFirst p f l := by
  induction l with
  | nil => rfl
  | cons x xs ih =>
    by_cases hp : p x = true
    · simp [updateFirst, hp, hf x, hff x]
    · simp [updateFirst, hp, ih]

theorem map_updateFirst_of_preserved {α β} (p : α → Bool) (f : α → α) (g : α → β)
    (l : List α) (h : ∀ x, g (f x) = g x) :
    (updateFirst p f l).map g = l.map g := by
  induction l with
  | nil => rfl
  | cons x xs ih =>
    by_cases hp : p x = true
    · simp [updateFirst, hp, h x]
    · simp [updateFirst, hp, ih]

theorem eraseP_eq_filter_of_unique {α} (p : α → Bool) (l : List α)
    (h : l.Pairwise fun x y => ¬(p x = true ∧ p y = true)) :
    l.eraseP p = l.filter (fun x => !(p x)) := by
  induction l with
  | nil => rfl
  | cons x xs ih =>
    rcases List.pairwise_cons.1 h with ⟨hx, hxs⟩
    by_cases hp : p x = true
    · have hrest : xs.filter (fun y => !(p y)) = xs := by
        apply List.filter_eq_self.mpr
        intro y hy
        have : ¬ p y = true := fun hpy => hx y hy ⟨hp, hpy⟩
        simpa using this
      simp [List.eraseP_cons_of_pos hp, hp, hrest]
    · have hp' : p x = false := by simpa using hp
      simp [List.eraseP_cons_of_neg (by simpa using hp), hp', ih hxs]

theorem filter_ne_idem (l : List Nat) (v : Nat) :
    (l.filter (fun x => x != v)).filter (fun x => x != v) = l.filter (fun x => x != v) := by
  induction l with
  | nil => rfl
  | cons x xs ih =>
    by_cases hx : (x != v) = true
    · simp [List.filter_cons, hx, ih]
    · simp [List.filter_cons, hx, ih]

theorem pairwise_beq_unique_of_nodup_map {α} (f : α → Nat) (l : List α)
    (h : (l.map f).Nodup) (k : Nat) :
    l.Pairwise fun a b => ¬((f a == k) = true ∧ (f b == k) = true) := by
  have h' : l.Pairwise fun a b => f a ≠ f b := List.pairwise_map.1 h
  exact h'.imp fun hab hk =>
    hab ((Nat.beq_eq_true_eq _ _ ▸ hk.1).trans (Nat.beq_eq_true_eq _ _ ▸ hk.2).symm)

/-! Simp lemmas for the per-document transforms and the collection
update wrappers. -/

@[simp] theorem Course.id_pushStudent (sid : Nat) (c : Course) :
    (Course.pushStudent sid c).id = c.id := rfl

@[simp] theorem Course.enrolledStudents_pushStudent (sid : Nat) (c : Course) :
    (Course.pushStudent sid c).enrolledStudents = c.enrolledStudents ++ [sid] := rfl

@[simp] theorem Course.id_pullStudent (sid : Nat) (c : Course) :
    (Course.pullStudent sid c).id = c.id := rfl

@[simp] theorem Course.enrolledStudents_pullStudent (sid : Nat) (c : Course) :
    (Course.pullStudent sid c).enrolledStudents
      = c.enrolledStudents.filter (fun x => x != sid) := rfl

@[simp] theorem Course.capacity_pushStudent (sid : Nat) (c : Course) :
    (Course.pushStudent sid c).capacity = c.capacity := rfl

@[simp] theorem Course.capacity_pullStudent (sid : Nat) (c : Course) :
    (Course.pullStudent sid c).capacity = c.capacity := rfl

@[simp] theorem Student.id_pushCourse (cid : Nat) (s : Student) :
    (Student.pushCourse cid s).id = s.id := rfl

@[simp] theorem Student.enrolledCourses_pushCourse (cid : Nat) (s : Student) :
    (Student.pushCourse cid s).enrolledCourses = s.enrolledCourses ++ [cid] := rfl

@[simp] theorem Student.id_pullCourse (cid : Nat) (s : Student) :
    (Student.pullCourse cid s).id = s.id := rfl

@[simp] theorem Student.enrolledCourses_pullCourse (cid : Nat) (s : Student) :
    (Student.pullCourse cid s).enrolledCourses
      = s.enrolledCourses.filter (fun x => x != cid) := rfl

@[simp] theorem students_pushEnrolledStudent (db : DB) (cid sid : Nat) :
    (pushEnrolledStudent db cid sid).students = db.students := rfl

@[simp] theorem courses_pushEnrolledStudent (db : DB) (cid sid : Nat) :
    (pushEnrolledStudent db cid sid).courses
      = updateFirst (fun c => c.id == cid) (Course.pushStudent sid) db.courses := rfl

@[simp] theorem students_pushEnrolledCourse (db : DB) (sid cid : Nat) :
    (pushEnrolledCourse db sid cid).students
      = updateFirst (fun s => s.id == sid) (Student.pushCourse cid) db.students := rfl

@[simp] theorem courses_pushEnrolledCourse (db : DB) (sid cid : Nat) :
    (pushEnrolledCourse db sid cid).courses = db.courses := rfl

@[simp] theorem students_pullEnrolledStudent (db : DB) (cid sid : Nat) :
    (pullEnrolledStudent db cid sid).students = db.students := rfl

@[simp] theorem courses_pullEnrolledStudent (db : DB) (cid sid : Nat) :
    (pullEnrolledStudent db cid sid).courses
      = updateFirst (fun c => c.id == cid) (Course.pullStudent sid) db.courses := rfl

@[simp] theorem students_pullEnrolledCourse (db : DB) (sid cid : Nat) :
    (pullEnrolledCourse db sid cid).students
      = updateFirst (fun s => s.id == sid) (Student.pullCourse cid) db.students := rfl

@[simp] theorem courses_pullEnrolledCourse (db : DB) (sid cid : Nat) :
    (pullEnrolledCourse db sid cid).courses = db.courses := rfl

/-! Preservation of the bidirectional invariant by each coordinator
operation. -/

theorem invariant_pushPair (db : DB) (cid sid : Nat)
    (hwf : WF db) (hinv : Invariant db) :
    Invariant (pushEnrolledCourse (pushEnrolledStudent db cid sid) sid cid) := by
  intro s' hs' c' hc'
  have hbs : updateFirst (fun s : Student => s.id == sid) (Student.pushCourse cid) db.students
      = db.students.map (fun s => if s.id == sid then Student.pushCourse cid s else s) :=
    updateFirst_eq_map _ _ _ (pairwise_beq_unique_of_nodup_map _ _ hwf.1 sid)
  have hbc : updateFirst (fun c : Course => c.id == cid) (Course.pushStudent sid) db.courses
      = db.courses.map (fun c => if c.id == cid then Course.pushStudent sid c else c) :=
    updateFirst_eq_map _ _ _ (pairwise_beq_unique_of_nodup_map _ _ hwf.2 cid)
  simp only [students_pushEnrolledCourse, courses_pushEnrolledStudent,
    students_pushEnrolledStudent, courses_pushEnrolledCourse] at hs' hc'
  rw [hbs] at hs'
  rw [hbc] at hc'
  obtain ⟨s, hs, rfl⟩ := List.mem_map.1 hs'
  obtain ⟨c, hc, rfl⟩ := List.mem_map.1 hc'
  have base := hinv s hs c hc
  by_cases hq : s.id = sid <;> by_cases hp : c.id = cid
  · have e1 : (if (s.id == sid) = true then Student.pushCourse cid s else s)
        = Student.pushCourse cid s := if_pos (by simp [hq])
    have e2 : (if (c.id == cid) = true then Course.pushStudent sid c else c)
        = Course.pushStudent sid c := if_pos (by simp [hp])
    rw [e1, e2]
    simp [hq, hp]
  · have e1 : (if (s.id == sid) = true then Student.pushCourse cid s else s)
        = Student.pushCourse cid s := if_pos (by simp [hq])
    have e2 : (if (c.id == cid) = true then Course.pushStudent sid c else c) = c :=
      if_neg (by simp [hp])
    rw [e1, e2]
    simpa [hp] using base
  · have e1 : (if (s.id == sid) = true then Student.pushCourse cid s else s) = s :=
      if_neg (by simp [hq])
    have e2 : (if (c.id == cid) = true then Course.pushStudent sid c else c)
        = Course.pushStudent sid c := if_pos (by simp [hp])
    rw [e1, e2]
    simpa [hq] using base
  · have e1 : (if (s.id == sid) = true then Student.pushCourse cid s else s) = s :=
      if_neg (by simp [hq])
    have e2 : (if (c.id == cid) = true then Course.pushStudent sid c else c) = c :=
      if_neg (by simp [hp])
    rw [e1, e2]
    exact base

theorem invariant_enroll (db : DB) (cid sid : Nat)
    (hwf : WF db) (hinv : Invariant db) : Invariant (enroll db cid sid).2 := by
  unfold enroll
  cases hfc : findCourse db cid with
  | none => simpa using hinv
  | some course =>
    cases hfs : findStudent db sid with
    | none => simpa using hinv
    | some student =>
      by_cases hmem : cid ∈ student.enrolledCourses
      · simpa [hmem] using hinv
      · by_cases hcap : (course.enrolledStudents.length : Int) ≥ course.capacity
        · simpa [hmem, hcap] using hinv
        · simpa [hmem, hcap] using invariant_pushPair db cid sid hwf hinv

theorem invariant_drop (db : DB) (cid sid : Nat)
    (hwf : WF db) (hinv : Invariant db) : Invariant (drop db cid sid).2 := by
  unfold drop
  cases hfc : findCourse db cid with
  | none => simpa using hinv
  | some course =>
    simp only []
    intro s' hs' c' hc'
    have hbs : updateFirst (fun s : Student => s.id == sid) (Student.pullCourse cid) db.students
        = db.students.map (fun s => if s.id == sid then Student.pullCourse cid s else s) :=
      updateFirst_eq_map _ _ _ (pairwise_beq_unique_of_nodup_map _ _ hwf.1 sid)
    have hbc : updateFirst (fun c : Course => c.id == cid) (Course.pullStudent sid) db.courses
        = db.courses.map (fun c => if c.id == cid then Course.pullStudent sid c else c) :=
      updateFirst_eq_map _ _ _ (pairwise_beq_unique_of_nodup_map _ _ hwf.2 cid)
    simp only [students_pullEnrolledCourse, courses_pullEnrolledStudent,
      students_pullEnrolledStudent, courses_pullEnrolledCourse] at hs' hc'
    rw [hbs] at hs'
    rw [hbc] at hc'
    obtain ⟨s, hs, rfl⟩ := List.mem_map.1 hs'
    obtain ⟨c, hc, rfl⟩ := List.mem_map.1 hc'
    have base := hinv s hs c hc
    by_cases hq : s.id = sid <;> by_cases hp : c.id = cid
    · have e1 : (if (s.id == sid) = true then Student.pullCourse cid s else s)
          = Student.pullCourse cid s := if_pos (by simp [hq])
      have e2 : (if (c.id == cid) = true then Course.pullStudent sid c else c)
          = Course.pullStudent sid c := if_pos (by simp [hp])
      rw [e1, e2]
      simp [hq, hp, List.mem_filter]
    · have e1 : (if (s.id == sid) = true then Student.pullCourse cid s else s)
          = Student.pullCourse cid s := if_pos (by simp [hq])
      have e2 : (if (c.id == cid) = true then Course.pullStudent sid c else c) = c :=
        if_neg (by simp [hp])
      rw [e1, e2]
      simpa [List.mem_filter, hp] using base
    · have e1 : (if (s.id == sid) = true then Student.pullCourse cid s else s) = s :=
        if_neg (by simp [hq])
      have e2 : (if (c.id == cid) = true then Course.pullStudent sid c else c)
          = Course.pullStudent sid c := if_pos (by simp [hp])
      rw [e1, e2]
      simpa [List.mem_filter, hq] using base
    · have e1 : (if (s.id == sid) = true then Student.pullCourse cid s else s) = s :=
        if_neg (by simp [hq])
      have e2 : (if (c.id == cid) = true then Course.pullStudent sid c else c) = c :=
        if_neg (by simp [hp])
      rw [e1, e2]
      exact base

theorem invariant_deleteCourse (db : DB) (cid : Nat)
    (hwf : WF db) (hinv : Invariant db) : Invariant (deleteCourse db cid).2 := by
  unfold deleteCourse
  cases hfc : findCourse db cid with
  | none => simpa using hinv
  | some course =>
    intro s' hs' c' hc'
    have hs2 : s' ∈ db.students.map (fun s =>
        if cid ∈ s.enrolledCourses then Student.pullCourse cid s else s) := hs'
    have hc2 : c' ∈ db.courses.eraseP (fun c => c.id == cid) := hc'
    have hher : db.courses.eraseP (fun c => c.id == cid)
        = db.courses.filter (fun c => !(c.id == cid)) :=
      eraseP_eq_filter_of_unique _ _ (pairwise_beq_unique_of_nodup_map _ _ hwf.2 cid)
    rw [hher] at hc2
    have hcm := List.mem_filter.1 hc2
    have hcne : ¬ (c'.id = cid) := by simpa using hcm.2
    obtain ⟨s, hs, rfl⟩ := List.mem_map.1 hs2
    have base := hinv s hs c' hcm.1
    by_cases hmem : cid ∈ s.enrolledCourses
    · rw [if_pos hmem]
      simpa [List.mem_filter, hcne] using base
    · rw [if_neg hmem]
      exact base

theorem invariant_deleteStudent (db : DB) (sid : Nat)
    (hwf : WF db) (hinv : Invariant db) : Invariant (deleteStudent db sid).2 := by
  unfold deleteStudent
  cases hfs : findStudent db sid with
  | none => simpa using hinv
  | some student =>
    intro s' hs' c' hc'
    have hs2 : s' ∈ db.students.eraseP (fun s => s.id == sid) := hs'
    have hc2 : c' ∈ db.courses.map (fun c =>
        if sid ∈ c.enrolledStudents then Course.pullStudent sid c else c) := hc'
    have hher : db.students.eraseP (fun s => s.id == sid)
        = db.students.filter (fun s => !(s.id == sid)) :=
      eraseP_eq_filter_of_unique _ _ (pairwise_beq_unique_of_nodup_map _ _ hwf.1 sid)
    rw [hher] at hs2
    have hsm := List.mem_filter.1 hs2
    have hsne : ¬ (s'.id = sid) := by simpa using hsm.2
    obtain ⟨c, hc, rfl⟩ := List.mem_map.1 hc2
    have base := hinv s' hsm.1 c hc
    by_cases hmem : sid ∈ c.enrolledStudents
    · rw [if_pos hmem]
      simpa [List.mem_filter, hsne] using base
    · rw [if_neg hmem]
      exact base

/-- C1: for every student S and course C, after any single coordinator
operation (enroll, drop, deleteCourse, deleteStudent) runs to completion
from a state satisfying the invariant, C's id is in S.enrolledCourses if
and only if S's id is in C.enrolledStudents. -/
theorem coordOp_preserves_bidirectional_invariant (db : DB) (op : CoordOp)
    (hwf : WF db) (hinv : Invariant db) : Invariant (applyOp db op) := by
  cases op with
  | enrollOp cid sid => exact invariant_enroll db cid sid hwf hinv
  | dropOp cid sid => exact invariant_drop db cid sid hwf hinv
  | deleteCourseOp cid => exact invariant_deleteCourse db cid hwf hinv
  | deleteStudentOp sid => exact invariant_deleteStudent db sid hwf hinv

/-! Preservation of the capacity bound by each coordinator operation. -/

theorem capOK_pushPair (db : DB) (cid sid : Nat) (course : Course)
    (hfc : findCourse db cid = some course)
    (hlt : ¬ (course.enrolledStudents.length : Int) ≥ course.capacity)
    (hcap : CapOK db) :
    CapOK (pushEnrolledCourse (pushEnrolledStudent db cid sid) sid cid) := by
  intro c' hc'
  have hc2 : c' ∈ updateFirst (fun c => c.id == cid) (Course.pushStudent sid) db.courses := hc'
  rcases mem_updateFirst_of_find? _ _ _ course hfc c' hc2 with h | h
  · exact hcap c' h
  · rw [h]
    simp only [Course.capacity_pushStudent, Course.enrolledStudents_pushStudent,
      List.length_append, List.length_singleton]
    have := hlt
    push_cast
    omega

theorem capOK_enroll (db : DB) (cid sid : Nat) (hcap : CapOK db) :
    CapOK (enroll db cid sid).2 := by
  unfold enroll
  cases hfc : findCourse db cid with
  | none => simpa using hcap
  | some course =>
    cases hfs : findStudent db sid with
    | none => simpa using hcap
    | some student =>
      by_cases hmem : cid ∈ student.enrolledCourses
      · simpa [hmem] using hcap
      · by_cases hfull : (course.enrolledStudents.length : Int) ≥ course.capacity
        · simpa [hmem, hfull] using hcap
        · simpa [hmem, hfull] using capOK_pushPair db cid sid course hfc hfull hcap

theorem capOK_drop (db : DB) (cid sid : Nat) (hcap : CapOK db) :
    CapOK (drop db cid sid).2 := by
  unfold drop
  cases hfc : findCourse db cid with
  | none => simpa using hcap
  | some course =>
    intro c' hc'
    have hc2 : c' ∈ updateFirst (fun c => c.id == cid) (Course.pullStudent sid) db.courses := hc'
    rcases mem_updateFirst_of_find? _ _ _ course hfc c' hc2 with h | h
    · exact hcap c' h
    · rw [h]
      simp only [Course.capacity_pullStudent, Course.enrolledStudents_pullStudent]
      have hle : (course.enrolledStudents.filter (fun x => x != sid)).length
          ≤ course.enrolledStudents.length := List.length_filter_le _ _
      have hbase := hcap course (List.mem_of_find?_eq_some hfc)
      omega

theorem capOK_deleteCourse (db : DB) (cid : Nat) (hcap : CapOK db) :
    CapOK (deleteCourse db cid).2 := by
  unfold deleteCourse
  cases hfc : findCourse db cid with
  | none => simpa using hcap
  | some course =>
    intro c' hc'
    have hc2 : c' ∈ db.courses.eraseP (fun c => c.id == cid) := hc'
    exact hcap c' ((List.eraseP_sublist _).mem hc2)

theorem capOK_deleteStudent (db : DB) (sid : Nat) (hcap : CapOK db) :
    CapOK (deleteStudent db sid).2 := by
  unfold deleteStudent
  cases hfs : findStudent db sid with
  | none => simpa using hcap
  | some student =>
    intro c' hc'
    have hc2 : c' ∈ db.courses.map (fun c =>
        if sid ∈ c.enrolledStudents then Course.pullStudent sid c else c) := hc'
    obtain ⟨c, hc, rfl⟩ := List.mem_map.1 hc2
    have hbase := hcap c hc
    by_cases hmem : sid ∈ c.enrolledStudents
    · rw [if_pos hmem]
      simp only [Course.capacity_pullStudent, Course.enrolledStudents_pullStudent]
      have hle : (c.enrolledStudents.filter (fun x => x != sid)).length
          ≤ c.enrolledStudents.length := List.length_filter_le _ _
      omega
    · rw [if_neg hmem]
      exact hbase

/-- C2: for every course C, the length of C.enrolledStudents never
exceeds C.capacity: every coordinator operation (in particular enroll,
the only one that grows the set) preserves the bound when run from a
state where it holds. -/
theorem coordOp_preserves_capacity_bound (db : DB) (op : CoordOp) (hcap : CapOK db) :
    CapOK (applyOp db op) := by
  cases op with
  | enrollOp cid sid => exact capOK_enroll db cid sid hcap
  | dropOp cid sid => exact capOK_drop db cid sid hcap
  | deleteCourseOp cid => exact capOK_deleteCourse db cid hcap
  | deleteStudentOp sid => exact capOK_deleteStudent db sid hcap

theorem DB.eq_of_fields (a b : DB)
    (hs : a.students = b.students) (hc : a.courses = b.courses) : a = b := by
  cases a
  cases b
  cases hs
  cases hc
  rfl

/-- C4: enroll(studentId, courseId) fails with NotFound when the student
or the course does not exist; otherwise fails with AlreadyEnrolled
exactly when the student's enrolledCourses set contains courseId
(student-side is the authoritative duplicate check); otherwise fails with
CourseFull exactly when the course is at capacity; the checks run in that
order and a failing enroll changes neither document. -/
theorem enroll_check_order_and_failure_frame (db : DB) (cid sid : Nat) :
    ((findCourse db cid = none ∨ findStudent db sid = none) →
      ((enroll db cid sid).1 = .courseNotFound ∨ (enroll db cid sid).1 = .studentNotFound))
  ∧ (∀ c s, findCourse db cid = some c → findStudent db sid = some s →
      ((enroll db cid sid).1 = .alreadyEnrolled ↔ cid ∈ s.enrolledCourses))
  ∧ (∀ c s, findCourse db cid = some c → findStudent db sid = some s →
      cid ∉ s.enrolledCourses →
      ((enroll db cid sid).1 = .courseFull
        ↔ (c.enrolledStudents.length : Int) ≥ c.capacity))
  ∧ ((enroll db cid sid).1.isSuccess = false → (enroll db cid sid).2 = db) := by
  refine ⟨?_, ?_, ?_, ?_⟩
  · intro h
    unfold enroll
    rcases h with h | h
    · rw [h]
      exact Or.inl rfl
    · cases hfc : findCourse db cid with
      | none => exact Or.inl rfl
      | some c => rw [h]; exact Or.inr rfl
  · intro c s hfc hfs
    unfold enroll
    rw [hfc, hfs]
    by_cases hmem : cid ∈ s.enrolledCourses
    · simp [hmem]
    · by_cases hfull : (c.enrolledStudents.length : Int) ≥ c.capacity
      · simp [hmem, hfull]
      · simp [hmem, hfull]
  · intro c s hfc hfs hmem
    unfold enroll
    simp only [hfc, hfs]
    rw [if_neg hmem]
    by_cases hfull : (c.enrolledStudents.length : Int) ≥ c.capacity
    · simp [hfull]
    · simp [hfull]
  · intro hfail
    cases hfc : findCourse db cid with
    | none =>
      unfold enroll
      simp [hfc]
    | some c =>
      cases hfs : findStudent db sid with
      | none =>
        unfold enroll
        simp [hfc, hfs]
      | some s =>
        unfold enroll at hfail ⊢
        simp only [hfc, hfs] at hfail ⊢
        by_cases hmem : cid ∈ s.enrolledCourses
        · rw [if_pos hmem]
        · rw [if_neg hmem] at hfail ⊢
          by_cases hfull : (c.enrolledStudents.length : Int) ≥ c.capacity
          · rw [if_pos hfull]
          · rw [if_neg hfull] at hfail
            exact absurd hfail (by simp [EnrollOutcome.isSuccess])

theorem drop_eq_of_found (db : DB) (cid sid : Nat) (c : Course)
    (h : findCourse db cid = some c) :
    drop db cid sid
      = (.success, pullEnrolledCourse (pullEnrolledStudent db cid sid) sid cid) := by
  unfold drop
  simp only [h]

/-- C5: for every existing course C and any student id, drop succeeds
without error even when the pair is not enrolled, and running drop twice
in a row yields the same final state as running it once. -/
theorem drop_total_and_idempotent (db : DB) (cid sid : Nat) (c : Course)
    (h : findCourse db cid = some c) :
    (drop db cid sid).1 = .success
  ∧ (drop (drop db cid sid).2 cid sid).2 = (drop db cid sid).2 := by
  have hD : (drop db cid sid).2
      = pullEnrolledCourse (pullEnrolledStudent db cid sid) sid cid := by
    rw [drop_eq_of_found db cid sid c h]
  have h2 : findCourse (drop db cid sid).2 cid = some (Course.pullStudent sid c) := by
    rw [hD]
    unfold findCourse
    simp only [courses_pullEnrolledCourse, courses_pullEnrolledStudent]
    rw [find?_updateFirst _ _ _ (fun x => by simp)]
    rw [show db.courses.find? (fun x => x.id == cid) = some c from h]
    rfl
  refine ⟨by rw [drop_eq_of_found db cid sid c h], ?_⟩
  have hE : (drop (drop db cid sid).2 cid sid).2
      = pullEnrolledCourse (pullEnrolledStudent (drop db cid sid).2 cid sid) sid cid := by
    rw [drop_eq_of_found _ cid sid _ h2]
  rw [hE, hD]
  apply DB.eq_of_fields
  · simp only [students_pullEnrolledCourse, students_pullEnrolledStudent]
    exact updateFirst_updateFirst _ _ _ (fun x => by simp)
      (fun x => by simp [Student.pullCourse, filter_ne_idem])
  · simp only [courses_pullEnrolledCourse, courses_pullEnrolledStudent]
    exact updateFirst_updateFirst _ _ _ (fun x => by simp)
      (fun x => by simp [Course.pullStudent, filter_ne_idem])

/-- C6: deleteCourse(courseId) deletes the course document and removes
courseId from the enrolledCourses set of every remaining student, so no
student's enrolledCourses contains the deleted course id afterwards. -/
theorem deleteCourse_cascade_removes_membership (db : DB) (cid : Nat) (c : Course)
    (hwf : WF db) (h : findCourse db cid = some c) :
    (deleteCourse db cid).1 = .success
  ∧ (∀ c2 ∈ (deleteCourse db cid).2.courses, c2.id ≠ cid)
  ∧ (∀ s ∈ (deleteCourse db cid).2.students, cid ∉ s.enrolledCourses) := by
  refine ⟨by unfold deleteCourse; rw [h], ?_, ?_⟩
  · intro c2 hc2
    have hc3 : c2 ∈ db.courses.eraseP (fun x => x.id == cid) := by
      unfold deleteCourse at hc2
      rw [h] at hc2
      exact hc2
    rw [eraseP_eq_filter_of_unique _ _
      (pairwise_beq_unique_of_nodup_map _ _ hwf.2 cid)] at hc3
    have := (List.mem_filter.1 hc3).2
    simpa using this
  · intro s hs
    have hs2 : s ∈ db.students.map (fun s =>
        if cid ∈ s.enrolledCourses then Student.pullCourse cid s else s) := by
      unfold deleteCourse at hs
      rw [h] at hs
      exact hs
    obtain ⟨s0, hs0, rfl⟩ := List.mem_map.1 hs2
    by_cases hmem : cid ∈ s0.enrolledCourses
    · rw [if_pos hmem]
      simp [List.mem_filter]
    · rw [if_neg hmem]
      exact hmem

/-- C8 (amended): on a successful enroll the handler responds with the
course value read before the update, and the stored course after the
operation does contain the student id. -/
theorem enroll_returns_presnapshot (db : DB) (cid sid : Nat) (c : Course)
    (h : (enroll db cid sid).1 = .success c) :
    findCourse db cid = some c
  ∧ ∃ c2, findCourse (enroll db cid sid).2 cid = some c2 ∧ sid ∈ c2.enrolledStudents := by
  cases hfc : findCourse db cid with
  | none =>
    unfold enroll at h
    simp [hfc] at h
  | some course =>
    cases hfs : findStudent db sid with
    | none =>
      unfold enroll at h
      simp [hfc, hfs] at h
    | some student =>
      unfold enroll at h
      simp only [hfc, hfs] at h
      by_cases hmem : cid ∈ student.enrolledCourses
      · rw [if_pos hmem] at h
        exact absurd h (by simp)
      · rw [if_neg hmem] at h
        by_cases hfull : (course.enrolledStudents.length : Int) ≥ course.capacity
        · rw [if_pos hfull] at h
          exact absurd h (by simp)
        · rw [if_neg hfull] at h
          have hcc : course = c := by simpa using h
          subst hcc
          refine ⟨rfl, ?_⟩
          have hdb : (enroll db cid sid).2
              = pushEnrolledCourse (pushEnrolledStudent db cid sid) sid cid := by
            unfold enroll
            simp only [hfc, hfs]
            rw [if_neg hmem, if_neg hfull]
          rw [hdb]
          refine ⟨Course.pushStudent sid course, ?_, by simp⟩
          unfold findCourse
          simp only [courses_pushEnrolledCourse, courses_pushEnrolledStudent]
          rw [find?_updateFirst _ _ _ (fun x => by simp)]
          rw [show db.courses.find? (fun x => x.id == cid) = some course from hfc]
          rfl

/-! Concrete states used to instantiate the theorems. -/

/-- A student already enrolled in course 10. -/
def adaStudent : Student :=
  { id := 1, name := "Ada", email := "ada@x", password := "h1",
    studentId := "S1", enrolledCourses := [10] }

/-- A student enrolled in nothing. -/
def boStudent : Student :=
  { id := 2, name := "Bo", email := "bo@x", password := "h2",
    studentId := "S2", enrolledCourses := [] }

/-- A course with one enrolled student and one free slot. -/
def introCourse : Course :=
  { id := 10, courseCode := "CS101", courseName := "Intro",
    instructor := "Dr. Smith", credits := 3, description := "Basics",
    capacity := 2, enrolledStudents := [1] }

def sampleDB : DB := { students := [adaStudent, boStudent], courses := [introCourse] }

/-- A course with three enrolled students, for the cascade scenario. -/
def bigCourse : Course :=
  { id := 10, courseCode := "CS101", courseName := "Intro",
    instructor := "Dr. Smith", credits := 3, description := "Basics",
    capacity := 30, enrolledStudents := [1, 2, 3] }

def cascadeDB : DB :=
  { students :=
      [{ id := 1, name := "Ada", email := "ada@x", password := "h1",
         studentId := "S1", enrolledCourses := [10] },
       { id := 2, name := "Bo", email := "bo@x", password := "h2",
         studentId := "S2", enrolledCourses := [10] },
       { id := 3, name := "Cy", email := "cy@x", password := "h3",
         studentId := "S3", enrolledCourses := [10] }],
    courses := [bigCourse] }

/-- Witness for C1: the hypotheses hold at a concrete state and the
conclusion follows for a concrete enroll operation. -/
theorem coordOp_preserves_bidirectional_invariant_witness :
    WF sampleDB ∧ Invariant sampleDB
      ∧ Invariant (applyOp sampleDB (.enrollOp 10 2)) :=
  ⟨by simp only [WF]; decide, by simp only [Invariant]; decide,
   coordOp_preserves_bidirectional_invariant sampleDB (.enrollOp 10 2)
     (by simp only [WF]; decide) (by simp only [Invariant]; decide)⟩

/-- Witness for C2 at a concrete state and enroll operation. -/
theorem coordOp_preserves_capacity_bound_witness :
    CapOK sampleDB ∧ CapOK (applyOp sampleDB (.enrollOp 10 2)) :=
  ⟨by simp only [CapOK]; decide,
   coordOp_preserves_capacity_bound sampleDB (.enrollOp 10 2)
     (by simp only [CapOK]; decide)⟩

/-- Witness for C4: at a concrete state, re-enrolling an enrolled
student yields AlreadyEnrolled and leaves the database unchanged. -/
theorem enroll_check_order_and_failure_frame_witness :
    (enroll sampleDB 10 1).1 = .alreadyEnrolled ∧ (enroll sampleDB 10 1).2 = sampleDB :=
  ⟨((enroll_check_order_and_failure_frame sampleDB 10 1).2.1 introCourse adaStudent
      (by decide) (by decide)).mpr (by decide),
   (enroll_check_order_and_failure_frame sampleDB 10 1).2.2.2 (by decide)⟩

/-- Witness for C5: dropping a never-enrolled pair succeeds and a second
drop does not change the state. -/
theorem drop_total_and_idempotent_witness :
    (drop sampleDB 10 2).1 = .success
  ∧ (drop (drop sampleDB 10 2).2 10 2).2 = (drop sampleDB 10 2).2 :=
  drop_total_and_idempotent sampleDB 10 2 introCourse (by decide)

/-- Witness for C6: deleting a course with three enrolled students
removes the membership from all three. -/
theorem deleteCourse_cascade_removes_membership_witness :
    (deleteCourse cascadeDB 10).1 = .success
  ∧ (∀ c2 ∈ (deleteCourse cascadeDB 10).2.courses, c2.id ≠ 10)
  ∧ (∀ s ∈ (deleteCourse cascadeDB 10).2.students, 10 ∉ s.enrolledCourses) :=
  deleteCourse_cascade_removes_membership cascadeDB 10 bigCourse
    (by simp only [WF]; decide) (by decide)

/-- C8 counterexample: at a concrete state a successful enroll responds
with a course value that does not contain the enrolled student's id. -/
theorem enroll_returned_course_missing_student :
    (enroll sampleDB 10 2).1 = .success introCourse
  ∧ (2 : Nat) ∉ introCourse.enrolledStudents := by
  constructor
  · decide
  · decide

/-- Witness for the amended C8 at a concrete state. -/
theorem enroll_returns_presnapshot_witness :
    findCourse sampleDB 10 = some introCourse
  ∧ ∃ c2, findCourse (enroll sampleDB 10 2).2 10 = some c2
      ∧ (2 : Nat) ∈ c2.enrolledStudents :=
  enroll_returns_presnapshot sampleDB 10 2 introCourse (by decide)

/-! Course update, portal server variant (C7).  The handler destructures
all six fields from the request body and passes every one of them to the
update, `courseCode` included. -/

/-- The six body fields `PUT /api/courses/:id` of the portal server
destructures and writes. -/
structure CourseUpdateBody where
  courseCode : String
  courseName : String
  instructor : String
  credits : Int
  description : String
  capacity : Int
deriving Repr, DecidableEq

/-- Overwrite the six updatable fields of a course document with the
body's values, as the portal server's update does. -/
def setCourseFields (b : CourseUpdateBody) (c : Course) : Course :=
  { c with
    courseCode := b.courseCode, courseName := b.courseName,
    instructor := b.instructor, credits := b.credits,
    description := b.description, capacity := b.capacity }

/-- `PUT /api/courses/:id` of the portal server: `findOneAndUpdate` with
a `set` of all six body fields, returning the updated document. -/
def updateCourse (db : DB) (cid : Nat) (b : CourseUpdateBody) : Option Course × DB :=
  match findCourse db cid with
  | none => (none, db)
  | some c =>
    (some (setCourseFields b c),
     { db with courses := updateFirst (fun x => x.id == cid) (setCourseFields b) db.courses })

/-! Course update, course-API server variants (C7).  Both sibling
servers (the mongoose one with auth, and the plain one) share this
handler: `const rest-of-body = req.body without courseCode` — the
courseCode field is destructured away before the update, so only the
remaining present fields are applied. -/

/-- A course document of the course-API servers' schema. -/
structure CourseDoc where
  id : Nat
  courseCode : String
  courseName : String
  credits : Int
  department : String
  instructor : String
  description : String
deriving Repr, DecidableEq

/-- An update request body for the course-API servers; absent JSON
fields are `none`. -/
structure CourseDocUpdate where
  courseCode : Option String
  courseName : Option String
  credits : Option Int
  department : Option String
  instructor : Option String
  description : Option String
deriving Repr, DecidableEq

/-- Apply the update data with `courseCode` destructured away: each
present field overwrites the stored one, `courseCode` is never touched. -/
def applyUpdateData (b : CourseDocUpdate) (c : CourseDoc) : CourseDoc :=
  { c with
    courseName := b.courseName.getD c.courseName,
    credits := b.credits.getD c.credits,
    department := b.department.getD c.department,
    instructor := b.instructor.getD c.instructor,
    description := b.description.getD c.description }

/-- `PUT /api/courses/:id` of the course-API servers:
`findByIdAndUpdate` with the body minus `courseCode`. -/
def updateCourseById (courses : List CourseDoc) (cid : Nat) (b : CourseDocUpdate) :
    List CourseDoc :=
  updateFirst (fun c => c.id == cid) (applyUpdateData b) courses

/-- An update request that tries to change the course code. -/
def newCodeBody : CourseUpdateBody :=
  { courseCode := "MATH999", courseName := "Intro", instructor := "Dr. Smith",
    credits := 3, description := "Basics", capacity := 2 }

/-- C7 counterexample: in the portal server, updating an existing course
with a body whose courseCode differs replaces the stored courseCode. -/
theorem updateCourse_overwrites_courseCode :
    ((findCourse sampleDB 10).map (fun c => c.courseCode)) = some "CS101"
  ∧ ((findCourse (updateCourse sampleDB 10 newCodeBody).2 10).map
      (fun c => c.courseCode)) = some "MATH999" := by
  constructor
  · decide
  · decide

/-- C7 (amended): in the course-API servers, the update operation leaves
every stored courseCode unchanged, whatever the request body says. -/
theorem updateCourseById_preserves_courseCode
    (courses : List CourseDoc) (cid : Nat) (b : CourseDocUpdate) :
    (updateCourseById courses cid b).map (fun c => c.courseCode)
      = courses.map (fun c => c.courseCode) :=
  map_updateFirst_of_preserved _ _ _ _ (fun _ => rfl)

/-! Student login (C9). -/

/-- Outcome of `POST /api/students/login`: an HTTP status with an error
message, or the success payload fields. -/
inductive LoginOutcome where
  | failure (status : Nat) (error : String)
  | loggedIn (id : Nat) (name email studentId : String)
deriving Repr, DecidableEq

/-- `POST /api/students/login`: find the student by email; missing email
and password-hash mismatch both answer 401 with the same message.  The
bcrypt comparison is abstracted as the `hashCheck` parameter. -/
def login (hashCheck : String → String → Bool) (db : DB)
    (email password : String) : LoginOutcome :=
  match db.students.find? (fun s => s.email == email) with
  | none => .failure 401 "Invalid credentials"
  | some st =>
    if hashCheck password st.password then .loggedIn st.id st.name st.email st.studentId
    else .failure 401 "Invalid credentials"

/-- C9: login fails with the same status and the same error body whether
the email is unknown or the password hash does not match, so the two
failure cases are indistinguishable to the caller. -/
theorem login_failure_cases_indistinguishable
    (hashCheck : String → String → Bool) (db : DB) (email password : String) :
    (db.students.find? (fun s => s.email == email) = none →
      login hashCheck db email password = .failure 401 "Invalid credentials")
  ∧ (∀ st, db.students.find? (fun s => s.email == email) = some st →
      hashCheck password st.password = false →
      login hashCheck db email password = .failure 401 "Invalid credentials") := by
  constructor
  · intro h
    unfold login
    simp [h]
  · intro st h hbad
    unfold login
    simp [h, hbad]

/-- Witness for C9: both failure cases at a concrete state produce the
identical response. -/
theorem login_failure_cases_indistinguishable_witness :
    login (fun p h => p == h) sampleDB "ghost@x" "pw"
        = .failure 401 "Invalid credentials"
  ∧ login (fun p h => p == h) sampleDB "ada@x" "wrong"
        = .failure 401 "Invalid credentials" :=
  ⟨(login_failure_cases_indistinguishable (fun p h => p == h) sampleDB "ghost@x" "pw").1
      (by decide),
   (login_failure_cases_indistinguishable (fun p h => p == h) sampleDB "ada@x" "wrong").2
      adaStudent (by decide) (by decide)⟩

/-! Course creation (C10). -/

/-- The JSON value supplied for `capacity` in a create-course request:
an absent field, an explicit null, or a number. -/
inductive JsVal where
  | undefinedV
  | nullV
  | numV (n : Int)
deriving Repr, DecidableEq

/-- JavaScript `value or-else 30`: a falsy capacity (absent, null, or 0)
yields the default, any other number is kept. -/
def jsOrDefault (v : JsVal) (d : Int) : Int :=
  match v with
  | .numV n => if n != 0 then n else d
  | _ => d

/-- The body fields `POST /api/courses` destructures. -/
structure CreateCourseBody where
  courseCode : String
  courseName : String
  instructor : String
  credits : Int
  description : String
  capacity : JsVal
deriving Repr, DecidableEq

/-- `POST /api/courses`: build the course document with
`capacity: capacity or-else 30` and an empty `enrolledStudents` array,
then `insertOne` it. -/
def createCourse (db : DB) (newId : Nat) (b : CreateCourseBody) : DB × Course :=
  let c : Course :=
    { id := newId, courseCode := b.courseCode, courseName := b.courseName,
      instructor := b.instructor, credits := b.credits,
      description := b.description, capacity := jsOrDefault b.capacity 30,
      enrolledStudents := [] }
  ({ db with courses := db.courses ++ [c] }, c)

/-- C10: course creation defaults capacity with a falsy-check: an
absent, null, or 0 capacity is stored as 30, and no create request can
store capacity 0. -/
theorem createCourse_capacity_falsy_default (db : DB) (newId : Nat)
    (b : CreateCourseBody) :
    ((b.capacity = .undefinedV ∨ b.capacity = .nullV ∨ b.capacity = .numV 0) →
      (createCourse db newId b).2.capacity = 30)
  ∧ (createCourse db newId b).2.capacity ≠ 0 := by
  constructor
  · intro h
    rcases h with h | h | h <;> simp [createCourse, jsOrDefault, h]
  · show jsOrDefault b.capacity 30 ≠ 0
    unfold jsOrDefault
    cases hb : b.capacity with
    | undefinedV => simp
    | nullV => simp
    | numV n =>
      by_cases hn : n = 0
      · simp [hn]
      · simp [hn]

/-- Witness for C10: a null capacity is stored as 30. -/
theorem createCourse_capacity_falsy_default_witness :
    (createCourse sampleDB 99
      { courseCode := "BUS301", courseName := "Biz", instructor := "Dr. Lee",
        credits := 3, description := "", capacity := .nullV }).2.capacity = 30 :=
  (createCourse_capacity_falsy_default sampleDB 99
    { courseCode := "BUS301", courseName := "Biz", instructor := "Dr. Lee",
      credits := 3, description := "", capacity := .nullV }).1 (Or.inr (Or.inl rfl))

/-! Concurrent enroll (C3).  The enroll handler awaits four database
actions in sequence: read course, read student, push into the course,
push into the student; the duplicate and capacity checks are computed
from the two snapshot reads, not from the state current at the time of
the course-side push.  Between any two of those awaits the event loop
may run another request, so two in-flight enrolls interleave at the
granularity of single database actions. -/

/-- Program counter of one in-flight enroll request: which await it has
completed, carrying the snapshots it has read. -/
inductive EnrollPhase where
  | start
  | gotCourse (c : Option Course)
  | gotStudent (c : Option Course) (s : Option Student)
  | pushedCourseSide (snapshot : Course)
  | finished (r : EnrollOutcome)
deriving Repr, DecidableEq

/-- True exactly when the request has finished with the success
response. -/
def EnrollPhase.succeeded : EnrollPhase → Bool
  | .finished (.success _) => true
  | _ => false

/-- One in-flight enroll request. -/
structure EnrollThread where
  courseId : Nat
  studentId : Nat
  phase : EnrollPhase
deriving Repr, DecidableEq

/-- One atomic step of the enroll handler against the shared database:
each step performs at most one database action; the checks between the
student read and the course-side push are pure and use the snapshots. -/
def stepEnroll (db : DB) (t : EnrollThread) : EnrollThread × DB :=
  match t.phase with
  | .start => ({ t with phase := .gotCourse (findCourse db t.courseId) }, db)
  | .gotCourse c => ({ t with phase := .gotStudent c (findStudent db t.studentId) }, db)
  | .gotStudent none _ => ({ t with phase := .finished .courseNotFound }, db)
  | .gotStudent (some _) none => ({ t with phase := .finished .studentNotFound }, db)
  | .gotStudent (some course) (some student) =>
    if t.courseId ∈ student.enrolledCourses then
      ({ t with phase := .finished .alreadyEnrolled }, db)
    else if (course.enrolledStudents.length : Int) ≥ course.capacity then
      ({ t with phase := .finished .courseFull }, db)
    else
      ({ t with phase := .pushedCourseSide course },
       pushEnrolledStudent db t.courseId t.studentId)
  | .pushedCourseSide course =>
      ({ t with phase := .finished (.success course) },
       pushEnrolledCourse db t.studentId t.courseId)
  | .finished _ => (t, db)

/-- Two in-flight enroll requests sharing the database. -/
structure RaceState where
  t1 : EnrollThread
  t2 : EnrollThread
  db : DB
deriving Repr, DecidableEq

/-- Let the chosen request perform its next atomic step. -/
def raceStep (s : RaceState) (pickFirst : Bool) : RaceState :=
  if pickFirst then
    let r := stepEnroll s.db s.t1
    { s with t1 := r.1, db := r.2 }
  else
    let r := stepEnroll s.db s.t2
    { s with t2 := r.1, db := r.2 }

/-- Run a schedule: each entry says which of the two requests steps. -/
def raceRun (s : RaceState) : List Bool → RaceState
  | [] => s
  | b :: bs => raceRun (raceStep s b) bs

/-- A course with capacity 1 and no enrolled students, plus two
students, the state the race starts from. -/
def raceDB : DB :=
  { students :=
      [{ id := 1, name := "Ada", email := "ada@x", password := "h1",
         studentId := "S1", enrolledCourses := [] },
       { id := 2, name := "Bo", email := "bo@x", password := "h2",
         studentId := "S2", enrolledCourses := [] }],
    courses := [{ id := 10, courseCode := "CS101", courseName := "Intro",
                  instructor := "Dr. Smith", credits := 3, description := "Basics",
                  capacity := 1, enrolledStudents := [] }] }

/-- The alternating schedule: both requests read their snapshots before
either writes. -/
def raceFinal : RaceState :=
  raceRun { t1 := { courseId := 10, studentId := 1, phase := .start },
            t2 := { courseId := 10, studentId := 2, phase := .start },
            db := raceDB }
    [true, false, true, false, true, false, true, false]

/-- C3 fails on the code: with one free slot and two concurrent enrolls,
an interleaving in which both requests read before either writes lets
both pass the snapshot capacity check; both report success and the course
ends with two enrolled students against capacity 1. -/
theorem enroll_race_overfills_capacity :
    EnrollPhase.succeeded raceFinal.t1.phase = true
  ∧ EnrollPhase.succeeded raceFinal.t2.phase = true
  ∧ (findCourse raceFinal.db 10).map (fun c => c.enrolledStudents) = some [1, 2]
  ∧ (findCourse raceFinal.db 10).map (fun c => c.capacity) = some 1 := by
  refine ⟨?_, ?_, ?_, ?_⟩
  · decide
  · decide
  · decide
  · decide
